import Mathlib

/-!
Verification of the parallel block-header / transaction synchronization engine
of this repository against its natural-language specification.

The development shallowly embeds:
* `BlockHeadersProvider` (`src/packages/js-dapi-client/lib/BlockHeadersProvider/BlockHeadersProvider.js`):
  batch handling (`handleHeaders`), error routing (`handleError`), chain-root
  preparation (`ensureChainRoot`), the IDLE / HISTORICAL_SYNC / CONTINUOUS_SYNC
  state machine and `handleHistoricalDataObtained`.
* `TransactionsReader` (`src/packages/wallet-lib/src/plugins/Workers/TransactionsSyncWorker/TransactionsReader.js`):
  the historical and continuous session handlers (merkle-block accept/reject
  latch, retry logic in the stream error handlers, bloom-filter restart
  bookkeeping, and the `beforeReconnect` resume computation).
* The historical read partition algorithm of `BlockHeadersReader`, whose source
  file is not part of the provided sources; it is modelled from the
  specification's partitioning section.

Heights and counts are JavaScript numbers used with exact integer arithmetic in
the source, so they are embedded as `Int`.  Headers, addresses and opaque error
payloads are embedded as `Nat` tokens.  Event-emitter side effects are made
explicit: each handler is a pure function from its inputs and the mutable state
it closes over to the updated state together with the list of emitted
events/actions, preserving the source's order of effects.
-/

/-! ### BlockHeadersProvider: data model -/

/-- Result of a `spvChain.addHeaders(headers, headHeight)` call as observed by
the Provider: either the list of headers actually accepted by the chain, or a
thrown `SPVError`, or any other thrown error. -/
inductive AddHeadersResult where
  | ok (accepted : List Nat)
  | spvError (e : Nat)
  | otherError (e : Nat)
deriving DecidableEq

/-- Events emitted by the Provider (`BlockHeadersProvider.EVENTS`). -/
inductive ProviderEvent where
  | chainUpdated (headers : List Nat) (headHeight : Int)
  | historicalDataObtained
  | stopped
  | errorEvent (e : Nat)
deriving DecidableEq

/-- Observable outcome of one `handleHeaders` invocation: the events emitted on
the Provider, whether the batch `reject` callback was invoked (and with which
error), and whether the Reader was destroyed (`destroyReader`). -/
structure HandleHeadersOutcome where
  events : List ProviderEvent
  rejectCalledWith : Option Nat
  readerDestroyed : Bool
deriving DecidableEq

/-- Embedding of `BlockHeadersProvider#handleHeaders`.  The chain call itself is
external; its result is passed in as `r`.  Mirrors the source: on success emit
`CHAIN_UPDATED(headersAdded, headHeight + (headers.length - headersAdded.length))`
only when `headersAdded.length` is non-zero; on `SPVError` invoke `reject`; on
any other error run `handleError` (destroy the Reader, emit `error`). -/
def handleHeaders (headers : List Nat) (headHeight : Int) (r : AddHeadersResult) :
    HandleHeadersOutcome :=
  match r with
  | .ok accepted =>
    if accepted.length ≠ 0 then
      { events := [.chainUpdated accepted
          (headHeight + ((headers.length : Int) - (accepted.length : Int)))],
        rejectCalledWith := none,
        readerDestroyed := false }
    else
      { events := [], rejectCalledWith := none, readerDestroyed := false }
  | .spvError e =>
      { events := [], rejectCalledWith := some e, readerDestroyed := false }
  | .otherError e =>
      { events := [.errorEvent e], rejectCalledWith := none, readerDestroyed := true }

/-! ### BlockHeadersProvider: state machine and chain-root preparation -/

/-- Provider states (`BlockHeadersProvider.STATES`). -/
inductive ProviderState where
  | idle
  | historicalSync
  | continuousSync
deriving DecidableEq

/-- Calls the Provider issues against its collaborators, in order. -/
inductive ProviderCall where
  | chainReset (height : Int)
  | readerReadHistorical (fromHeight toHeight : Int)
  | readerSubscribeToNew (fromHeight : Int)
deriving DecidableEq

/-- The part of the SPV chain the Provider inspects: `hashesByHeight`. -/
structure SpvChainView where
  hashesByHeight : Int → Option Nat

/-- Embedding of `BlockHeadersProvider#ensureChainRoot`: issue `chain.reset(height)`
exactly when `hashesByHeight[height - 1]` is absent.  Returns the list of chain
calls performed. -/
def ensureChainRoot (chain : SpvChainView) (height : Int) : List ProviderCall :=
  if (chain.hashesByHeight (height - 1)).isNone then [.chainReset height] else []

/-- Embedding of `BlockHeadersProvider#readHistorical`: guard on configured core
methods and IDLE state, then `ensureChainRoot(fromBlockHeight)`, then start the
Reader; finish in HISTORICAL_SYNC.  The returned list records the collaborator
calls in the order the source performs them. -/
def providerReadHistorical (st : ProviderState) (chain : SpvChainView)
    (coreMethodsSet : Bool) (fromBlockHeight toBlockHeight : Int) :
    Except String (ProviderState × List ProviderCall) :=
  if !coreMethodsSet then
    .error "Core methods have not been provided"
  else if st ≠ ProviderState.idle then
    .error "BlockHeaderProvider can not read historical data while busy"
  else
    .ok (ProviderState.historicalSync,
      ensureChainRoot chain fromBlockHeight
        ++ [.readerReadHistorical fromBlockHeight toBlockHeight])

/-- Embedding of `BlockHeadersProvider#startContinuousSync`: same guards, then
`ensureChainRoot(fromBlockHeight)`, then subscribe the Reader; finish in
CONTINUOUS_SYNC. -/
def providerStartContinuousSync (st : ProviderState) (chain : SpvChainView)
    (coreMethodsSet : Bool) (fromBlockHeight : Int) :
    Except String (ProviderState × List ProviderCall) :=
  if !coreMethodsSet then
    .error "Core methods have not been provided"
  else if st ≠ ProviderState.idle then
    .error "BlockHeaderProvider can not sync continuous data while busy"
  else
    .ok (ProviderState.continuousSync,
      ensureChainRoot chain fromBlockHeight ++ [.readerSubscribeToNew fromBlockHeight])

/-- Side effects of `handleHistoricalDataObtained`, in source order. -/
inductive ProviderAction where
  | emitEvent (e : ProviderEvent)
  | removeListeners
  | destroyReader
deriving DecidableEq

/-- Embedding of `BlockHeadersProvider#handleHistoricalDataObtained`.  The
`chain.validate()` call is external; `validateError` is `some e` when it throws.
Mirrors the source's `try`/`catch`/`finally`: on success emit
`HISTORICAL_DATA_OBTAINED` and remove listeners; on failure run `handleError`
(destroy the Reader first, then emit `error`); in both cases the `finally`
block leaves the state IDLE. -/
def handleHistoricalDataObtained (validateError : Option Nat) :
    ProviderState × List ProviderAction :=
  match validateError with
  | none =>
      (ProviderState.idle,
       [.emitEvent .historicalDataObtained, .removeListeners])
  | some e =>
      (ProviderState.idle,
       [.destroyReader, .emitEvent (.errorEvent e)])

/-! ### Claims C1 and C2: Provider batch handling -/

/-- Claim C1: for every batch handled by the Provider where `chain.addHeaders`
returns `accepted` without throwing, if `accepted` is non-empty the Provider
emits exactly one `CHAIN_UPDATED` event carrying `accepted` and the height
`headHeight + (headers.length - accepted.length)`, and if `accepted` is empty
no `CHAIN_UPDATED` event (indeed no event at all) is emitted. -/
theorem handleHeaders_chain_updated_iff_accepted_nonempty
    (headers : List Nat) (headHeight : Int) (accepted : List Nat) :
    (accepted ≠ [] →
      (handleHeaders headers headHeight (.ok accepted)).events =
        [.chainUpdated accepted
          (headHeight + ((headers.length : Int) - (accepted.length : Int)))]) ∧
    (accepted = [] →
      (handleHeaders headers headHeight (.ok accepted)).events = []) := by
  constructor
  · intro hne
    have hlen : accepted.length ≠ 0 := by
      simpa [List.length_eq_zero] using hne
    simp [handleHeaders, hlen]
  · intro he
    subst he
    simp [handleHeaders]

/-- Witness for C1 at a concrete batch: two headers delivered at head height 5,
one accepted (difference 1, so the emitted height is 6); and an empty accepted
list produces no events. -/
theorem handleHeaders_chain_updated_iff_accepted_nonempty_witness :
    (handleHeaders [7, 8] 5 (.ok [8])).events = [.chainUpdated [8] 6] ∧
    (handleHeaders [7, 8] 5 (.ok [])).events = [] := by
  constructor
  · have h := (handleHeaders_chain_updated_iff_accepted_nonempty [7, 8] 5 [8]).1
      (by decide)
    simpa using h
  · exact (handleHeaders_chain_updated_iff_accepted_nonempty [7, 8] 5 []).2 rfl

/-- Claim C2: when `chain.addHeaders` throws an `SPVError` the Provider invokes
the batch's `reject` callback with that error, emits no event (in particular no
`error` and no `CHAIN_UPDATED`) and keeps the Reader; when it throws any other
error the Provider does not invoke `reject`, destroys the Reader and emits a
single `error` event carrying that error. -/
theorem handleHeaders_error_routing (headers : List Nat) (headHeight : Int) (e : Nat) :
    handleHeaders headers headHeight (.spvError e) =
      { events := [], rejectCalledWith := some e, readerDestroyed := false } ∧
    handleHeaders headers headHeight (.otherError e) =
      { events := [.errorEvent e], rejectCalledWith := none, readerDestroyed := true } := by
  exact ⟨rfl, rfl⟩

/-! ### TransactionsReader: data model

Embedding of `TransactionsReader` (the bloom-filter stream variant).  A
historical session closes over `fromBlockHeight`, `count`, the mutable
`lastSyncedBlockHeight`, the retry counter of `subscribeToHistoricalBatch`, and
the mutable `restartArgs`; a continuous session closes over `fromBlockHeight`,
`lastSyncedBlockHeight`, `restartArgs` and the buffered `addressesGenerated`.
Each merkle block delivery creates a fresh accept/reject latch. -/

/-- gRPC `CANCELLED` status code (`GrpcErrorCodes.CANCELLED`). -/
def grpcCancelled : Int := 1

/-- Error payloads a stream can be destroyed with. -/
inductive DestroyErr where
  | heightBelowRange
  | consumer (e : Nat)
deriving DecidableEq

/-- Actions a merkle-block callback performs on the underlying stream. -/
inductive StreamAction where
  | cancelStream
  | destroyStream (e : DestroyErr)
deriving DecidableEq

/-- The errors thrown synchronously to the caller of the merkle-block
callbacks. -/
inductive ThrowKind where
  | acceptAfterReject
  | rejectAfterAccept
  | rangeExceeded
deriving DecidableEq

/-- The per-merkle-block one-shot latch (`accepted` / `rejected` locals). -/
structure MerkleLatch where
  accepted : Bool
  rejected : Bool
deriving DecidableEq

/-- Restart arguments buffered by a historical session
(`restartArgs = {fromBlockHeight, count, addresses}`). -/
structure RestartArgs where
  fromBlockHeight : Int
  count : Int
  addresses : List Nat
deriving DecidableEq

/-- Session-level state of one `subscribeWithRetries` historical sub-stream. -/
structure HistSession where
  fromBlockHeight : Int
  count : Int
  lastSyncedBlockHeight : Int
  currentRetries : Nat
  maxRetries : Nat
  restartArgs : Option RestartArgs
  addresses : List Nat
deriving DecidableEq

/-- Result of `acceptMerkleBlock` in the historical data handler: the updated
latch and session fields, the stream action taken (if any), and the error
thrown to the caller (if any).  State updates preceding a throw are kept, as in
the source. -/
structure HistAcceptResult where
  latch : MerkleLatch
  lastSynced : Int
  restartArgs : Option RestartArgs
  streamAction : Option StreamAction
  threw : Option ThrowKind
deriving DecidableEq

/-- Embedding of the historical `acceptMerkleBlock(height, newAddresses)`:
fail on a rejected latch; otherwise mark accepted, advance
`lastSyncedBlockHeight`, compute `remainingCount = count - (height -
fromBlockHeight + 1)`; a zero remainder just returns, a negative remainder
throws the range error, and a non-empty `newAddresses` stores `restartArgs`
and cancels the stream. -/
def histAcceptMerkleBlock (s : HistSession) (latch : MerkleLatch)
    (height : Int) (newAddresses : List Nat) : HistAcceptResult :=
  if latch.rejected then
    { latch := latch, lastSynced := s.lastSyncedBlockHeight,
      restartArgs := s.restartArgs, streamAction := none,
      threw := some .acceptAfterReject }
  else
    let latchA : MerkleLatch := { latch with accepted := true }
    let blocksRead : Int := height - s.fromBlockHeight + 1
    let remainingCount : Int := s.count - blocksRead
    if remainingCount = 0 then
      { latch := latchA, lastSynced := height, restartArgs := s.restartArgs,
        streamAction := none, threw := none }
    else if remainingCount < 0 then
      { latch := latchA, lastSynced := height, restartArgs := s.restartArgs,
        streamAction := none, threw := some .rangeExceeded }
    else if newAddresses ≠ [] then
      { latch := latchA, lastSynced := height,
        restartArgs := some
          { fromBlockHeight := height + 1, count := remainingCount,
            addresses := s.addresses ++ newAddresses },
        streamAction := some .cancelStream, threw := none }
    else
      { latch := latchA, lastSynced := height, restartArgs := s.restartArgs,
        streamAction := none, threw := none }

/-- Result of `rejectMerkleBlock` (shared shape between the two variants). -/
structure RejectResult where
  latch : MerkleLatch
  streamAction : Option StreamAction
  threw : Option ThrowKind
deriving DecidableEq

/-- Embedding of `rejectMerkleBlock(e)` (identical in both variants): fail on
an accepted latch; otherwise mark rejected and destroy the stream with `e`. -/
def rejectMerkleBlock (latch : MerkleLatch) (e : Nat) : RejectResult :=
  if latch.accepted then
    { latch := latch, streamAction := none, threw := some .rejectAfterAccept }
  else
    { latch := { latch with rejected := true },
      streamAction := some (.destroyStream (.consumer e)), threw := none }

/-- Outcome of the historical stream `error` handler. -/
inductive HistErrorAction where
  | noop
  | reopen (args : RestartArgs)
  | emitError
deriving DecidableEq

/-- State left by the historical stream `error` handler together with the
action it took. -/
structure HistErrorResult where
  action : HistErrorAction
  restartArgs : Option RestartArgs
  currentRetries : Nat
  streamCleared : Bool
deriving DecidableEq

/-- Embedding of the historical session `errorHandler(streamError)`:
`CANCELLED` clears the live stream and reopens from pending `restartArgs`
(clearing them) if any; any other error, while retries remain, reopens from
pending `restartArgs` or else from `(lastSyncedBlockHeight + 1,
count - blocksRead)` — skipping the reopen entirely when nothing remains —
and otherwise surfaces the error.  A successful reopen bumps the retry counter
on the non-cancelled path and always clears `restartArgs`. -/
def histErrorHandler (s : HistSession) (errCode : Int) : HistErrorResult :=
  if errCode = grpcCancelled then
    match s.restartArgs with
    | some r =>
        { action := .reopen r, restartArgs := none,
          currentRetries := s.currentRetries, streamCleared := true }
    | none =>
        { action := .noop, restartArgs := none,
          currentRetries := s.currentRetries, streamCleared := true }
  else if s.currentRetries < s.maxRetries then
    match s.restartArgs with
    | some r =>
        { action := .reopen r, restartArgs := none,
          currentRetries := s.currentRetries + 1, streamCleared := false }
    | none =>
        let blocksRead : Int := s.lastSyncedBlockHeight - s.fromBlockHeight + 1
        let remainingCount : Int := s.count - blocksRead
        if remainingCount ≤ 0 then
          { action := .noop, restartArgs := none,
            currentRetries := s.currentRetries, streamCleared := false }
        else
          { action := .reopen
              { fromBlockHeight := s.lastSyncedBlockHeight + 1,
                count := remainingCount, addresses := s.addresses },
            restartArgs := none,
            currentRetries := s.currentRetries + 1, streamCleared := false }
  else
    { action := .emitError, restartArgs := s.restartArgs,
      currentRetries := s.currentRetries, streamCleared := false }

/-- Restart arguments buffered by a continuous session (no count: continuous
streams are endless). -/
structure ContRestartArgs where
  fromBlockHeight : Int
  addresses : List Nat
deriving DecidableEq

/-- Session-level state of one `startContinuousSync` subscription. -/
structure ContSession where
  fromBlockHeight : Int
  lastSyncedBlockHeight : Int
  restartArgs : Option ContRestartArgs
  addresses : List Nat
  addressesGenerated : List Nat
deriving DecidableEq

/-- Result of `acceptMerkleBlock` in the continuous data handler. -/
structure ContAcceptResult where
  latch : MerkleLatch
  lastSynced : Int
  restartArgs : Option ContRestartArgs
  addressesGenerated : List Nat
  streamAction : Option StreamAction
  threw : Option ThrowKind
deriving DecidableEq

/-- Embedding of the continuous `acceptMerkleBlock(height)`: fail on a
rejected latch; destroy the stream when `height < fromBlockHeight` (without
marking accepted); otherwise mark accepted, advance `lastSyncedBlockHeight`,
and when generated addresses are pending store `restartArgs` with the grown
address set and cancel the stream. -/
def contAcceptMerkleBlock (s : ContSession) (latch : MerkleLatch) (height : Int) :
    ContAcceptResult :=
  if latch.rejected then
    { latch := latch, lastSynced := s.lastSyncedBlockHeight,
      restartArgs := s.restartArgs, addressesGenerated := s.addressesGenerated,
      streamAction := none, threw := some .acceptAfterReject }
  else if height < s.fromBlockHeight then
    { latch := latch, lastSynced := s.lastSyncedBlockHeight,
      restartArgs := s.restartArgs, addressesGenerated := s.addressesGenerated,
      streamAction := some (.destroyStream .heightBelowRange), threw := none }
  else
    let latchA : MerkleLatch := { latch with accepted := true }
    if s.addressesGenerated ≠ [] then
      { latch := latchA, lastSynced := height,
        restartArgs := some
          { fromBlockHeight := height + 1,
            addresses := s.addresses ++ s.addressesGenerated },
        addressesGenerated := [],
        streamAction := some .cancelStream, threw := none }
    else
      { latch := latchA, lastSynced := height, restartArgs := s.restartArgs,
        addressesGenerated := s.addressesGenerated,
        streamAction := none, threw := none }

/-- Outcome of the continuous stream `error` handler. -/
inductive ContErrorAction where
  | noop
  | reopen (args : ContRestartArgs)
  | emitError
deriving DecidableEq

/-- State left by the continuous stream `error` handler together with the
action it took. -/
structure ContErrorResult where
  action : ContErrorAction
  restartArgs : Option ContRestartArgs
  streamCleared : Bool
deriving DecidableEq

/-- Embedding of the continuous session `errorHandler(streamError)`:
`CANCELLED` clears the live stream and reopens from pending `restartArgs`
(clearing them) if any; any other error is emitted upstream. -/
def contErrorHandler (s : ContSession) (errCode : Int) : ContErrorResult :=
  if errCode = grpcCancelled then
    match s.restartArgs with
    | some r => { action := .reopen r, restartArgs := none, streamCleared := true }
    | none => { action := .noop, restartArgs := none, streamCleared := true }
  else
    { action := .emitError, restartArgs := s.restartArgs, streamCleared := false }

/-- The subscription arguments handed to the transport's `updateArguments`
callback by the `beforeReconnect` handler. -/
structure UpdateArgs where
  filterAddresses : List Nat
  fromBlockHeight : Int
  count : Int
deriving DecidableEq

/-- Embedding of the continuous `beforeReconnectHandler(updateArguments)`:
with pending `restartArgs` return without calling the updater; otherwise call
it with `fromBlockHeight` unchanged when `lastSyncedBlockHeight` still equals
it, else `lastSyncedBlockHeight + 1`, with `count = 0` and a bloom filter over
the base plus any generated addresses, flushing the generated buffer.  Returns
the updater arguments (if called) and the new `addressesGenerated`. -/
def beforeReconnectHandler (s : ContSession) : Option UpdateArgs × List Nat :=
  match s.restartArgs with
  | some _ => (none, s.addressesGenerated)
  | none =>
    let newFromBlockHeight : Int :=
      if s.fromBlockHeight = s.lastSyncedBlockHeight then s.fromBlockHeight
      else s.lastSyncedBlockHeight + 1
    let newAddresses : List Nat :=
      if s.addressesGenerated ≠ [] then s.addresses ++ s.addressesGenerated
      else s.addresses
    (some { filterAddresses := newAddresses,
            fromBlockHeight := newFromBlockHeight, count := 0 }, [])

/-! ### Continuous-session traces -/

/-- Session state update produced by delivering and accepting one merkle block
on the continuous stream (a fresh latch per block, as in the data handler). -/
def contApplyAccept (s : ContSession) (height : Int) : ContSession :=
  let freshLatch : MerkleLatch := { accepted := false, rejected := false }
  let r := contAcceptMerkleBlock s freshLatch height
  { s with
    lastSyncedBlockHeight := r.lastSynced, restartArgs := r.restartArgs,
    addressesGenerated := r.addressesGenerated }

/-- Run a continuous session over a sequence of accepted merkle-block
heights. -/
def contRunAccepts (s : ContSession) (heights : List Int) : ContSession :=
  heights.foldl contApplyAccept s

/-- Initial continuous-session state established by `startContinuousSync`:
`lastSyncedBlockHeight = fromBlockHeight`, no pending restart, no generated
addresses. -/
def initContSession (fromBlockHeight : Int) (addresses : List Nat) : ContSession :=
  { fromBlockHeight := fromBlockHeight, lastSyncedBlockHeight := fromBlockHeight,
    restartArgs := none, addresses := addresses, addressesGenerated := [] }

/-- Accepting an in-range block with no pending restart and no generated
addresses only advances `lastSyncedBlockHeight`. -/
theorem contApplyAccept_of_le (s : ContSession) (height : Int)
    (hge : s.fromBlockHeight ≤ height) (hr : s.restartArgs = none)
    (hg : s.addressesGenerated = []) :
    contApplyAccept s height = { s with lastSyncedBlockHeight := height } := by
  have hlt : ¬ height < s.fromBlockHeight := not_lt.mpr hge
  obtain ⟨f, l, r0, a, g⟩ := s
  simp only at hr hg hlt
  subst hr
  subst hg
  simp [contApplyAccept, contAcceptMerkleBlock, hlt]

/-- Running a continuous session over in-range accepted heights leaves
`lastSyncedBlockHeight` at the last accepted height (or untouched for an empty
trace), with no pending restart created. -/
theorem contRunAccepts_plain (heights : List Int) (s : ContSession)
    (hge : ∀ h ∈ heights, s.fromBlockHeight ≤ h) (hr : s.restartArgs = none)
    (hg : s.addressesGenerated = []) :
    contRunAccepts s heights =
      { s with lastSyncedBlockHeight := heights.getLastD s.lastSyncedBlockHeight } := by
  induction heights generalizing s with
  | nil => simp [contRunAccepts]
  | cons a t ih =>
    have hstep := contApplyAccept_of_le s a (hge a (by simp)) hr hg
    have hrec := ih { s with lastSyncedBlockHeight := a }
      (fun h hh => hge h (by simp [hh])) hr hg
    calc contRunAccepts s (a :: t)
        = contRunAccepts (contApplyAccept s a) t := rfl
      _ = contRunAccepts { s with lastSyncedBlockHeight := a } t := by rw [hstep]
      _ = { s with lastSyncedBlockHeight := t.getLastD a } := hrec
      _ = { s with lastSyncedBlockHeight := (a :: t).getLastD s.lastSyncedBlockHeight } := by
          rw [List.getLastD_cons]

/-- In a strictly increasing height list, every member is bounded by the last
element. -/
theorem le_getLastD_of_sorted (heights : List Int) :
    ∀ d h : Int, heights.Pairwise (· < ·) → h ∈ heights → h ≤ heights.getLastD d := by
  induction heights with
  | nil => intro d h _ hmem; simp at hmem
  | cons a t ih =>
    intro d h hp hmem
    rw [List.pairwise_cons] at hp
    obtain ⟨ha, ht⟩ := hp
    rw [List.getLastD_cons]
    rcases List.mem_cons.mp hmem with he | hmem2
    · subst he
      cases t with
      | nil => simp
      | cons b t2 =>
        have hb : h < b := ha b (by simp)
        have hbl : b ≤ (b :: t2).getLastD h := ih h b ht (by simp)
        exact le_trans (le_of_lt hb) hbl
    · exact ih a h ht hmem2

/-! ### Claim C5: continuous reconnect resume point -/

/-- Claim C5, counterexample to the claim as stated: on a continuous session
subscribed at height 100, the consumer accepts the merkle block delivered at
height 100 (in range, no throw).  `lastSyncedBlockHeight` then still equals
`fromBlockHeight`, so `beforeReconnect` asks the transport to resume from
height 100 again — the already-delivered height 100 is not below the resume
height, i.e. it is requested (delivered) a second time, contradicting the
claim's "no header height already delivered ... is delivered again". -/
theorem beforeReconnect_redelivers_fromHeight :
    (contAcceptMerkleBlock (initContSession 100 [0])
        { accepted := false, rejected := false } 100).threw = none ∧
    (contRunAccepts (initContSession 100 [0]) [100]).lastSyncedBlockHeight = 100 ∧
    (beforeReconnectHandler (contRunAccepts (initContSession 100 [0]) [100])).1 =
      some { filterAddresses := [0], fromBlockHeight := 100, count := 0 } ∧
    ¬ (100 < 100) := by
  refine ⟨rfl, rfl, rfl, by omega⟩

/-- Claim C5, amended: with no filter-expansion restart pending, the
`beforeReconnect` updater is called with `fromHeight` unchanged when
`lastKnownHeight` still equals it and `lastKnownHeight + 1` otherwise, and
`count = 0`; consequently no already-delivered height strictly above
`fromHeight` is delivered again (a block at exactly `fromHeight` may be
re-delivered when it is the only one accepted so far).  Stated over a session
that accepted a strictly increasing in-range sequence of merkle-block
heights. -/
theorem beforeReconnect_resume (fromBlockHeight : Int) (addresses : List Nat)
    (heights : List Int) (hsorted : heights.Pairwise (· < ·))
    (hge : ∀ h ∈ heights, fromBlockHeight ≤ h) :
    (beforeReconnectHandler
        (contRunAccepts (initContSession fromBlockHeight addresses) heights)).1 =
      some { filterAddresses := addresses,
             fromBlockHeight :=
               if fromBlockHeight = heights.getLastD fromBlockHeight then fromBlockHeight
               else heights.getLastD fromBlockHeight + 1,
             count := 0 } ∧
    (∀ h ∈ heights, fromBlockHeight < h →
      h < (if fromBlockHeight = heights.getLastD fromBlockHeight then fromBlockHeight
           else heights.getLastD fromBlockHeight + 1)) := by
  have hrun := contRunAccepts_plain heights (initContSession fromBlockHeight addresses)
    (by simpa [initContSession] using hge) rfl rfl
  constructor
  · rw [hrun]
    simp [beforeReconnectHandler, initContSession]
  · intro h hmem hlt
    have hle := le_getLastD_of_sorted heights fromBlockHeight h hsorted hmem
    by_cases heq : fromBlockHeight = heights.getLastD fromBlockHeight
    · rw [if_pos heq]
      omega
    · rw [if_neg heq]
      omega

/-- Witness for C5 (amended) at a concrete session: subscribed at 100, blocks
accepted at heights 100 and 101; the updater is called with resume height 102
and the delivered height 101 (the one above `fromHeight`) is below it. -/
theorem beforeReconnect_resume_witness :
    (beforeReconnectHandler (contRunAccepts (initContSession 100 [0]) [100, 101])).1 =
      some { filterAddresses := [0], fromBlockHeight := 102, count := 0 } ∧
    (101 : Int) < 102 := by
  have h := beforeReconnect_resume 100 [0] [100, 101] (by decide) (by decide)
  exact ⟨h.1.trans (by decide),
    lt_of_lt_of_eq (h.2 101 (by decide) (by decide)) (by decide)⟩

/-! ### Claim C3: historical retry resume point -/

/-- Claim C3, counterexample to the claim as stated: a historical sub-stream
for `(fromHeight, count) = (1, 3)` that has already delivered heights up to
`L = 3` (everything) and then receives a non-CANCELLED error with retries
remaining does not open any replacement stream — the handler returns without
resubscribing — whereas the claim predicts a replacement opened with
`(L + 1, count - (L + 1 - fromHeight)) = (4, 0)`. -/
theorem histErrorHandler_no_reopen_when_done :
    (histErrorHandler
      { fromBlockHeight := 1, count := 3, lastSyncedBlockHeight := 3,
        currentRetries := 0, maxRetries := 1, restartArgs := none,
        addresses := [0] } 2).action = HistErrorAction.noop ∧
    HistErrorAction.noop ≠
      HistErrorAction.reopen { fromBlockHeight := 4, count := 0, addresses := [0] } := by
  exact ⟨rfl, by decide⟩

/-- Claim C3, amended: on a non-CANCELLED stream error with retries remaining
and no filter-expansion restart pending, if at least one height remains
undelivered the replacement stream is opened with `fromHeight' = L + 1` and
`count' = count - (L + 1 - fromHeight)` (so no already-delivered height is
requested again and the covered range still ends at `fromHeight + count - 1`,
skipping nothing); if nothing remains undelivered, no replacement stream is
opened; and with a filter-expansion restart pending, its stored arguments are
used for the reopen instead. -/
theorem histErrorHandler_retry_resume (s : HistSession) (errCode : Int)
    (hcode : errCode ≠ grpcCancelled)
    (hretry : s.currentRetries < s.maxRetries) :
    (s.restartArgs = none →
      0 < s.count - (s.lastSyncedBlockHeight + 1 - s.fromBlockHeight) →
      histErrorHandler s errCode =
        { action := .reopen
            { fromBlockHeight := s.lastSyncedBlockHeight + 1,
              count := s.count - (s.lastSyncedBlockHeight + 1 - s.fromBlockHeight),
              addresses := s.addresses },
          restartArgs := none, currentRetries := s.currentRetries + 1,
          streamCleared := false } ∧
      (s.lastSyncedBlockHeight + 1) +
          (s.count - (s.lastSyncedBlockHeight + 1 - s.fromBlockHeight)) =
        s.fromBlockHeight + s.count) ∧
    (s.restartArgs = none →
      s.count - (s.lastSyncedBlockHeight + 1 - s.fromBlockHeight) ≤ 0 →
      (histErrorHandler s errCode).action = .noop) ∧
    (∀ r, s.restartArgs = some r →
      (histErrorHandler s errCode).action = .reopen r) := by
  have harg : s.count - (s.lastSyncedBlockHeight + 1 - s.fromBlockHeight) =
      s.count - (s.lastSyncedBlockHeight - s.fromBlockHeight + 1) := by ring
  refine ⟨?_, ?_, ?_⟩
  · intro hnone hpos
    rw [harg] at hpos ⊢
    have hrem : ¬ (s.count - (s.lastSyncedBlockHeight - s.fromBlockHeight + 1) ≤ 0) := by
      omega
    refine ⟨?_, by ring⟩
    simp [histErrorHandler, hcode, hretry, hnone, hrem]
  · intro hnone hle
    rw [harg] at hle
    simp [histErrorHandler, hcode, hretry, hnone, hle]
  · intro r hsome
    simp [histErrorHandler, hcode, hretry, hsome]

/-- Witness for C3 (amended), the specification's own retry scenario:
`readHistorical(1, 12)`, heights 1..4 delivered, then a transient error; the
replacement stream is opened with `(5, 8)`. -/
theorem histErrorHandler_retry_resume_witness :
    histErrorHandler
      { fromBlockHeight := 1, count := 12, lastSyncedBlockHeight := 4,
        currentRetries := 0, maxRetries := 1, restartArgs := none,
        addresses := [5] } 2 =
    { action := .reopen { fromBlockHeight := 5, count := 8, addresses := [5] },
      restartArgs := none, currentRetries := 1, streamCleared := false } := by
  have h := (histErrorHandler_retry_resume
    { fromBlockHeight := 1, count := 12, lastSyncedBlockHeight := 4,
      currentRetries := 0, maxRetries := 1, restartArgs := none,
      addresses := [5] } 2 (by decide) (by decide)).1 rfl (by decide)
  exact h.1.trans (by decide)

/-! ### Claim C6: out-of-range merkle-block acceptance -/

/-- Claim C6, counterexample to the claim as stated: on a historical session
for `(fromHeight, count) = (1, 5)`, accepting a merkle block at height 10
(above `fromHeight + count - 1 = 5`) does not destroy the stream — it throws
the range error to the caller after having already marked the block accepted. -/
theorem histAccept_above_range_throws :
    (histAcceptMerkleBlock
      { fromBlockHeight := 1, count := 5, lastSyncedBlockHeight := 0,
        currentRetries := 0, maxRetries := 0, restartArgs := none,
        addresses := [0] } { accepted := false, rejected := false } 10 []).threw =
      some ThrowKind.rangeExceeded ∧
    (histAcceptMerkleBlock
      { fromBlockHeight := 1, count := 5, lastSyncedBlockHeight := 0,
        currentRetries := 0, maxRetries := 0, restartArgs := none,
        addresses := [0] } { accepted := false, rejected := false } 10 []).streamAction =
      none ∧
    (histAcceptMerkleBlock
      { fromBlockHeight := 1, count := 5, lastSyncedBlockHeight := 0,
        currentRetries := 0, maxRetries := 0, restartArgs := none,
        addresses := [0] } { accepted := false, rejected := false } 10 []).latch.accepted =
      true := by
  exact ⟨rfl, rfl, rfl⟩

/-- Claim C6, amended: on a continuous stream, `accept(height)` with
`height < fromHeight` destroys the underlying stream with an error and leaves
the latch un-accepted; on a historical stream, `accept(height)` with
`height > fromHeight + count - 1` does not destroy the stream but throws the
range error to the caller, after marking the block accepted. -/
theorem acceptMerkleBlock_out_of_range (sH : HistSession) (sC : ContSession)
    (latchH latchC : MerkleLatch) (hH hC : Int) (newAddresses : List Nat)
    (hrH : latchH.rejected = false) (hrC : latchC.rejected = false)
    (hhi : sH.fromBlockHeight + sH.count - 1 < hH)
    (hlo : hC < sC.fromBlockHeight) :
    (histAcceptMerkleBlock sH latchH hH newAddresses).threw = some .rangeExceeded ∧
    (histAcceptMerkleBlock sH latchH hH newAddresses).streamAction = none ∧
    (histAcceptMerkleBlock sH latchH hH newAddresses).latch.accepted = true ∧
    (contAcceptMerkleBlock sC latchC hC).streamAction =
      some (.destroyStream .heightBelowRange) ∧
    (contAcceptMerkleBlock sC latchC hC).latch = latchC ∧
    (contAcceptMerkleBlock sC latchC hC).lastSynced = sC.lastSyncedBlockHeight := by
  have h1 : ¬ (sH.count - (hH - sH.fromBlockHeight + 1) = 0) := by omega
  have h2 : sH.count - (hH - sH.fromBlockHeight + 1) < 0 := by omega
  refine ⟨?_, ?_, ?_, ?_, ?_, ?_⟩ <;>
    simp [histAcceptMerkleBlock, contAcceptMerkleBlock, hrH, hrC, h1, h2, hlo]

/-- Witness for C6 (amended) at concrete sessions: the historical session
`(1, 5)` with accept at 10, and a continuous session subscribed at 100 with
accept at 99. -/
theorem acceptMerkleBlock_out_of_range_witness :
    (histAcceptMerkleBlock
      { fromBlockHeight := 1, count := 5, lastSyncedBlockHeight := 0,
        currentRetries := 0, maxRetries := 0, restartArgs := none,
        addresses := [0] } { accepted := false, rejected := false } 10 []).threw =
      some ThrowKind.rangeExceeded ∧
    (contAcceptMerkleBlock (initContSession 100 [0])
      { accepted := false, rejected := false } 99).streamAction =
      some (StreamAction.destroyStream DestroyErr.heightBelowRange) := by
  have h := acceptMerkleBlock_out_of_range
    { fromBlockHeight := 1, count := 5, lastSyncedBlockHeight := 0,
      currentRetries := 0, maxRetries := 0, restartArgs := none, addresses := [0] }
    (initContSession 100 [0])
    { accepted := false, rejected := false } { accepted := false, rejected := false }
    10 99 [] rfl rfl (by decide) (by decide)
  exact ⟨h.1, h.2.2.2.1⟩

/-! ### Claim C7: two-phase accept/reject latch -/

/-- Claim C7: in both the historical and the continuous variant, calling
`accept` on a merkle block that was already rejected throws, and calling
`reject` on a merkle block that was already accepted throws (the
`rejectMerkleBlock` closure is textually identical in the two variants and is
embedded once). -/
theorem merkleBlock_double_commit_throws (sH : HistSession) (sC : ContSession)
    (height : Int) (newAddresses : List Nat) (e1 e2 : Nat) :
    (histAcceptMerkleBlock sH { accepted := false, rejected := true }
        height newAddresses).threw = some .acceptAfterReject ∧
    (rejectMerkleBlock { accepted := true, rejected := false } e1).threw =
      some .rejectAfterAccept ∧
    (contAcceptMerkleBlock sC { accepted := false, rejected := true } height).threw =
      some .acceptAfterReject ∧
    (rejectMerkleBlock { accepted := true, rejected := false } e2).threw =
      some .rejectAfterAccept := by
  exact ⟨rfl, rfl, rfl, rfl⟩

/-! ### Claim C8: single-shot restart from pending restartArgs -/

/-- Claim C8: while `restartArgs` is non-null, the error handlers never
replace it with different (retry) arguments — they either leave it pending or
consume it; any reopen they perform uses exactly the pending arguments and
clears `restartArgs` (so the stream is reopened from them at most once); and
the `beforeReconnect` handler returns without calling the updater and without
touching the generated-address buffer. -/
theorem restartArgs_single_use (sH : HistSession) (sC : ContSession)
    (rH : RestartArgs) (rC : ContRestartArgs) (errH errC : Int)
    (hH : sH.restartArgs = some rH) (hC : sC.restartArgs = some rC) :
    ((histErrorHandler sH errH).restartArgs = none ∨
      (histErrorHandler sH errH).restartArgs = some rH) ∧
    (∀ r, (histErrorHandler sH errH).action = .reopen r →
      r = rH ∧ (histErrorHandler sH errH).restartArgs = none) ∧
    ((contErrorHandler sC errC).restartArgs = none ∨
      (contErrorHandler sC errC).restartArgs = some rC) ∧
    (∀ r, (contErrorHandler sC errC).action = .reopen r →
      r = rC ∧ (contErrorHandler sC errC).restartArgs = none) ∧
    (beforeReconnectHandler sC).1 = none ∧
    (beforeReconnectHandler sC).2 = sC.addressesGenerated := by
  have hmain : histErrorHandler sH errH =
        { action := .reopen rH, restartArgs := none,
          currentRetries := sH.currentRetries, streamCleared := true } ∨
      histErrorHandler sH errH =
        { action := .reopen rH, restartArgs := none,
          currentRetries := sH.currentRetries + 1, streamCleared := false } ∨
      histErrorHandler sH errH =
        { action := .emitError, restartArgs := some rH,
          currentRetries := sH.currentRetries, streamCleared := false } := by
    by_cases hc : errH = grpcCancelled
    · exact Or.inl (by simp [histErrorHandler, hc, hH])
    · by_cases hr : sH.currentRetries < sH.maxRetries
      · exact Or.inr (Or.inl (by simp [histErrorHandler, hc, hr, hH]))
      · exact Or.inr (Or.inr (by simp [histErrorHandler, hc, hr, hH]))
  have hcont : contErrorHandler sC errC =
        { action := .reopen rC, restartArgs := none, streamCleared := true } ∨
      contErrorHandler sC errC =
        { action := .emitError, restartArgs := some rC, streamCleared := false } := by
    by_cases hc : errC = grpcCancelled
    · exact Or.inl (by simp [contErrorHandler, hc, hC])
    · exact Or.inr (by simp [contErrorHandler, hc, hC])
  refine ⟨?_, ?_, ?_, ?_, ?_, ?_⟩
  · rcases hmain with h | h | h <;> rw [h] <;> simp
  · intro r hr
    rcases hmain with h | h | h <;> rw [h] at hr ⊢ <;> simp_all
  · rcases hcont with h | h <;> rw [h] <;> simp
  · intro r hr
    rcases hcont with h | h <;> rw [h] at hr ⊢ <;> simp_all
  · simp [beforeReconnectHandler, hC]
  · simp [beforeReconnectHandler, hC]

/-- Witness for C8 at concrete sessions with pending restart arguments. -/
theorem restartArgs_single_use_witness :
    (beforeReconnectHandler
      { fromBlockHeight := 100, lastSyncedBlockHeight := 105,
        restartArgs := some { fromBlockHeight := 106, addresses := [0, 1] },
        addresses := [0], addressesGenerated := [1] }).1 = none ∧
    ((histErrorHandler
        { fromBlockHeight := 1, count := 10, lastSyncedBlockHeight := 3,
          currentRetries := 0, maxRetries := 2,
          restartArgs := some { fromBlockHeight := 4, count := 7, addresses := [0] },
          addresses := [0] } 1).restartArgs = none ∨
      (histErrorHandler
        { fromBlockHeight := 1, count := 10, lastSyncedBlockHeight := 3,
          currentRetries := 0, maxRetries := 2,
          restartArgs := some { fromBlockHeight := 4, count := 7, addresses := [0] },
          addresses := [0] } 1).restartArgs =
        some { fromBlockHeight := 4, count := 7, addresses := [0] }) := by
  have h := restartArgs_single_use
    { fromBlockHeight := 1, count := 10, lastSyncedBlockHeight := 3,
      currentRetries := 0, maxRetries := 2,
      restartArgs := some { fromBlockHeight := 4, count := 7, addresses := [0] },
      addresses := [0] }
    { fromBlockHeight := 100, lastSyncedBlockHeight := 105,
      restartArgs := some { fromBlockHeight := 106, addresses := [0, 1] },
      addresses := [0], addressesGenerated := [1] }
    { fromBlockHeight := 4, count := 7, addresses := [0] }
    { fromBlockHeight := 106, addresses := [0, 1] } 1 1 rfl rfl
  exact ⟨h.2.2.2.2.1, h.1⟩

/-! ### Claim C9: chain-root preparation before any sync -/

/-- Claim C9: starting either sync mode from IDLE with core methods configured
first runs `ensureChainRoot(fromHeight)` — issuing `chain.reset(fromHeight)`
exactly when no hash is recorded at `fromHeight - 1`, and issuing no chain
call at all (leaving the chain unchanged) when a hash is present — and only
then starts the Reader. -/
theorem provider_ensures_chain_root (chain : SpvChainView)
    (fromBlockHeight toBlockHeight : Int) :
    (chain.hashesByHeight (fromBlockHeight - 1) = none →
      providerReadHistorical ProviderState.idle chain true fromBlockHeight toBlockHeight =
        .ok (ProviderState.historicalSync,
          [.chainReset fromBlockHeight,
           .readerReadHistorical fromBlockHeight toBlockHeight])) ∧
    ((chain.hashesByHeight (fromBlockHeight - 1)).isSome = true →
      providerReadHistorical ProviderState.idle chain true fromBlockHeight toBlockHeight =
        .ok (ProviderState.historicalSync,
          [.readerReadHistorical fromBlockHeight toBlockHeight])) ∧
    (chain.hashesByHeight (fromBlockHeight - 1) = none →
      providerStartContinuousSync ProviderState.idle chain true fromBlockHeight =
        .ok (ProviderState.continuousSync,
          [.chainReset fromBlockHeight, .readerSubscribeToNew fromBlockHeight])) ∧
    ((chain.hashesByHeight (fromBlockHeight - 1)).isSome = true →
      providerStartContinuousSync ProviderState.idle chain true fromBlockHeight =
        .ok (ProviderState.continuousSync,
          [.readerSubscribeToNew fromBlockHeight])) := by
  refine ⟨?_, ?_, ?_, ?_⟩
  · intro hh
    simp [providerReadHistorical, ensureChainRoot, hh]
  · intro hh
    obtain ⟨v, hv⟩ := Option.isSome_iff_exists.mp hh
    simp [providerReadHistorical, ensureChainRoot, hv]
  · intro hh
    simp [providerStartContinuousSync, ensureChainRoot, hh]
  · intro hh
    obtain ⟨v, hv⟩ := Option.isSome_iff_exists.mp hh
    simp [providerStartContinuousSync, ensureChainRoot, hv]

/-- Witness for C9: a chain with no hashes at all forces a reset at height 5;
a chain with a hash at height 4 leaves the chain untouched. -/
theorem provider_ensures_chain_root_witness :
    providerReadHistorical ProviderState.idle
        { hashesByHeight := fun _ => none } true 5 10 =
      .ok (ProviderState.historicalSync,
        [.chainReset 5, .readerReadHistorical 5 10]) ∧
    providerStartContinuousSync ProviderState.idle
        { hashesByHeight := fun _ => some 9 } true 5 =
      .ok (ProviderState.continuousSync, [.readerSubscribeToNew 5]) := by
  exact ⟨(provider_ensures_chain_root { hashesByHeight := fun _ => none } 5 10).1 rfl,
    (provider_ensures_chain_root { hashesByHeight := fun _ => some 9 } 5 0).2.2.2 rfl⟩

/-! ### Claim C10: IDLE after historical completion, even on validate failure -/

/-- Claim C10: after the Reader's `historicalDataObtained` fires, the Provider
ends in IDLE whether or not `chain.validate()` throws; on a validate failure
it destroys the Reader and then emits `error` instead of
`HISTORICAL_DATA_OBTAINED`; and a subsequent `readHistorical` from that state
(with core methods configured) is accepted rather than rejected as busy. -/
theorem historical_data_obtained_resets_state (e : Nat) (chain : SpvChainView)
    (fromBlockHeight toBlockHeight : Int) :
    (handleHistoricalDataObtained none).1 = ProviderState.idle ∧
    (handleHistoricalDataObtained none).2 =
      [.emitEvent .historicalDataObtained, .removeListeners] ∧
    (handleHistoricalDataObtained (some e)).1 = ProviderState.idle ∧
    (handleHistoricalDataObtained (some e)).2 =
      [.destroyReader, .emitEvent (.errorEvent e)] ∧
    providerReadHistorical (handleHistoricalDataObtained (some e)).1 chain true
        fromBlockHeight toBlockHeight =
      .ok (ProviderState.historicalSync,
        ensureChainRoot chain fromBlockHeight
          ++ [.readerReadHistorical fromBlockHeight toBlockHeight]) := by
  exact ⟨rfl, rfl, rfl, rfl, rfl⟩

/-! ### Claim C4: historical read partitioning (modelled from the spec) -/

/-- Modelled from the spec: the number of parallel sub-streams,
`min(round(total / targetBatchSize), maxParallelStreams)` with round-half-up,
i.e. `floor((2 * total + targetBatchSize) / (2 * targetBatchSize))`.  The
partitioning code lives in `BlockHeadersReader#readHistorical`, whose source
file is not among the provided sources (only its unit tests are). -/
def numHistoricalStreams (total targetBatchSize maxParallelStreams : Nat) : Nat :=
  min ((2 * total + targetBatchSize) / (2 * targetBatchSize)) maxParallelStreams

/-- Modelled from the spec: the per-stream slice size
`ceil(total / numStreams)`. -/
def perStreamCount (total numStreams : Nat) : Nat :=
  (total + numStreams - 1) / numStreams

/-- Modelled from the spec: the partition of `[fromBlockHeight, toBlockHeight]`
built by `BlockHeadersReader#readHistorical` (source file absent from the
provided sources): one sub-stream of size `total` when
`total ≤ targetBatchSize × 1.4`; otherwise `numStreams - 1` sub-streams of
size `per` starting at `fromBlockHeight + i × per` and a final sub-stream of
size `total - per × (numStreams - 1)`.  Each entry is a
`(fromBlockHeight, count)` pair handed to the stream opener. -/
def planHistoricalStreams (fromBlockHeight toBlockHeight : Int)
    (targetBatchSize maxParallelStreams : Nat) : List (Int × Int) :=
  let total : Int := toBlockHeight - fromBlockHeight + 1
  if 5 * total ≤ 7 * (targetBatchSize : Int) then
    [(fromBlockHeight, total)]
  else
    let n : Nat := numHistoricalStreams total.toNat targetBatchSize maxParallelStreams
    let per : Nat := perStreamCount total.toNat n
    ((List.range (n - 1)).map
      (fun (i : Nat) => (fromBlockHeight + (i : Int) * (per : Int), (per : Int))))
      ++ [(fromBlockHeight + ((n : Int) - 1) * (per : Int),
           total - (per : Int) * ((n : Int) - 1))]

/-- The second projections of a constant-second-component range map form a
replicate list. -/
theorem map_snd_range_pair (k : Nat) (g : Nat → Int) (c : Int) :
    ((List.range k).map (fun (i : Nat) => (g i, c))).map Prod.snd =
      List.replicate k c := by
  induction k with
  | zero => rfl
  | succ m ih =>
    rw [List.range_succ, List.map_append, List.map_append, ih,
      List.replicate_succ']
    rfl

/-- The first projections of a constant-second-component range map. -/
theorem map_fst_range_pair (k : Nat) (g : Nat → Int) (c : Int) :
    ((List.range k).map (fun (i : Nat) => (g i, c))).map Prod.fst =
      (List.range k).map g := by
  simp [List.map_map, Function.comp_def]

/-- Claim C4: for a historical read over at least one height, if
`total ≤ targetBatchSize × 1.4` exactly one sub-stream of size `total` is
opened; otherwise `numStreams = min(round(total / targetBatchSize),
maxParallelStreams)` streams are opened, all starting at
`fromHeight + i × per` with the first `numStreams - 1` of size
`per = ceil(total / numStreams)` and the last of size
`total - per × (numStreams - 1)`; and the sizes sum to `total`. -/
theorem planHistoricalStreams_partition (fromBlockHeight toBlockHeight : Int)
    (targetBatchSize maxParallelStreams : Nat)
    (htotal : 1 ≤ toBlockHeight - fromBlockHeight + 1)
    (hB : 1 ≤ targetBatchSize) (hP : 1 ≤ maxParallelStreams) :
    (5 * (toBlockHeight - fromBlockHeight + 1) ≤ 7 * (targetBatchSize : Int) →
      planHistoricalStreams fromBlockHeight toBlockHeight
          targetBatchSize maxParallelStreams =
        [(fromBlockHeight, toBlockHeight - fromBlockHeight + 1)]) ∧
    (7 * (targetBatchSize : Int) < 5 * (toBlockHeight - fromBlockHeight + 1) →
      (planHistoricalStreams fromBlockHeight toBlockHeight
          targetBatchSize maxParallelStreams).length =
        numHistoricalStreams (toBlockHeight - fromBlockHeight + 1).toNat
          targetBatchSize maxParallelStreams ∧
      (planHistoricalStreams fromBlockHeight toBlockHeight
          targetBatchSize maxParallelStreams).map Prod.fst =
        (List.range (numHistoricalStreams (toBlockHeight - fromBlockHeight + 1).toNat
            targetBatchSize maxParallelStreams)).map
          (fun (i : Nat) => fromBlockHeight + (i : Int) *
            (perStreamCount (toBlockHeight - fromBlockHeight + 1).toNat
              (numHistoricalStreams (toBlockHeight - fromBlockHeight + 1).toNat
                targetBatchSize maxParallelStreams) : Int)) ∧
      ((planHistoricalStreams fromBlockHeight toBlockHeight
          targetBatchSize maxParallelStreams).map Prod.snd).take
        (numHistoricalStreams (toBlockHeight - fromBlockHeight + 1).toNat
          targetBatchSize maxParallelStreams - 1) =
        List.replicate
          (numHistoricalStreams (toBlockHeight - fromBlockHeight + 1).toNat
            targetBatchSize maxParallelStreams - 1)
          (perStreamCount (toBlockHeight - fromBlockHeight + 1).toNat
            (numHistoricalStreams (toBlockHeight - fromBlockHeight + 1).toNat
              targetBatchSize maxParallelStreams) : Int) ∧
      (planHistoricalStreams fromBlockHeight toBlockHeight
          targetBatchSize maxParallelStreams).getLastD (0, 0) =
        (fromBlockHeight +
          ((numHistoricalStreams (toBlockHeight - fromBlockHeight + 1).toNat
              targetBatchSize maxParallelStreams : Int) - 1) *
            (perStreamCount (toBlockHeight - fromBlockHeight + 1).toNat
              (numHistoricalStreams (toBlockHeight - fromBlockHeight + 1).toNat
                targetBatchSize maxParallelStreams) : Int),
         (toBlockHeight - fromBlockHeight + 1) -
          (perStreamCount (toBlockHeight - fromBlockHeight + 1).toNat
            (numHistoricalStreams (toBlockHeight - fromBlockHeight + 1).toNat
              targetBatchSize maxParallelStreams) : Int) *
            ((numHistoricalStreams (toBlockHeight - fromBlockHeight + 1).toNat
              targetBatchSize maxParallelStreams : Int) - 1)) ∧
      ((planHistoricalStreams fromBlockHeight toBlockHeight
          targetBatchSize maxParallelStreams).map Prod.snd).sum =
        toBlockHeight - fromBlockHeight + 1) := by
  constructor
  · intro hsmall
    simp only [planHistoricalStreams]
    rw [if_pos hsmall]
  · intro hbig
    have hcond : ¬ (5 * (toBlockHeight - fromBlockHeight + 1) ≤
        7 * (targetBatchSize : Int)) := by omega
    set total : Int := toBlockHeight - fromBlockHeight + 1 with htot
    set n : Nat := numHistoricalStreams total.toNat targetBatchSize maxParallelStreams
      with hn
    set per : Nat := perStreamCount total.toNat n with hper
    have hn1 : 1 ≤ n := by
      rw [hn]
      unfold numHistoricalStreams
      refine le_min ?_ hP
      rw [Nat.le_div_iff_mul_le (by omega)]
      omega
    have hplan : planHistoricalStreams fromBlockHeight toBlockHeight
        targetBatchSize maxParallelStreams =
        ((List.range (n - 1)).map
          (fun (i : Nat) => (fromBlockHeight + (i : Int) * (per : Int), (per : Int))))
          ++ [(fromBlockHeight + ((n : Int) - 1) * (per : Int),
               total - (per : Int) * ((n : Int) - 1))] := by
      simp only [planHistoricalStreams]
      rw [if_neg hcond]
    rw [hplan]
    have hcast : ((n - 1 : Nat) : Int) = (n : Int) - 1 := by omega
    refine ⟨?_, ?_, ?_, ?_, ?_⟩
    · simp only [List.length_append, List.length_map, List.length_range,
        List.length_cons, List.length_nil]
      omega
    · rw [List.map_append,
        map_fst_range_pair (n - 1) (fun i => fromBlockHeight + (i : Int) * (per : Int))]
      have hsr : n = (n - 1) + 1 := by omega
      conv_rhs => rw [hsr, List.range_succ]
      rw [List.map_append]
      simp only [List.map_cons, List.map_nil]
      rw [hcast]
    · rw [List.map_append,
        map_snd_range_pair (n - 1) (fun i => fromBlockHeight + (i : Int) * (per : Int))]
      rw [List.take_append_of_le_length (by simp), List.take_replicate]
      simp
    · rw [List.getLastD_concat]
    · rw [List.map_append,
        map_snd_range_pair (n - 1) (fun i => fromBlockHeight + (i : Int) * (per : Int))]
      simp only [List.sum_append, List.map_cons, List.map_nil, List.sum_cons,
        List.sum_nil, List.sum_replicate]
      rw [nsmul_eq_mul, hcast]
      ring

/-- Witness for C4 at the specification's even-partition scenario:
`readHistorical(1, 34)` with `targetBatchSize = 10`, `maxParallelStreams = 6`
yields three sub-streams `(1, 12)`, `(13, 12)`, `(25, 10)`, whose sizes sum
to 34. -/
theorem planHistoricalStreams_partition_witness :
    planHistoricalStreams 1 34 10 6 = [(1, 12), (13, 12), (25, 10)] ∧
    ((planHistoricalStreams 1 34 10 6).map Prod.snd).sum = 34 := by
  have h := (planHistoricalStreams_partition 1 34 10 6
    (by norm_num) (by norm_num) (by norm_num)).2 (by norm_num)
  exact ⟨by decide, h.2.2.2.2.trans (by norm_num)⟩
